import Mathlib

/-!
Verification of the data-CAT record-indexed append/overwrite engine.

The development shallowly embeds the update path of `dataCAT/database.py`
and `dataCAT/functions.py`.  Components of the repository that are only
referenced from those files (`property_dset`, `pdb_array`, `hdf5_log`)
are modelled from the specification; every such definition carries a
doc comment starting with "Modelled from the spec:".
-/

namespace DataCAT

/-! ### Property Dataset Engine -/

/-- Modelled from the spec: a growable property dataset (`property_dset.py`
is absent from the sources).  Only the axis-0 length and the cell contents
are relevant; `data i` for `i ≥ len` is kept meaningful by `resize_dset`,
which sentinel-fills every newly exposed row. -/
structure PropDset (α : Type) where
  len : Nat
  data : Nat → α

/-- Modelled from the spec: resizing never truncates existing data, and
newly exposed rows are filled with a type-appropriate sentinel until
written (spec §4.2). -/
def resize_dset {α : Type} (sent : α) (d : PropDset α) (n : Nat) : PropDset α :=
  if n ≤ d.len then d
  else { len := n, data := fun i => if i < d.len then d.data i else sent }

/-- Writing a single cell of a property dataset. -/
def writeCell {α : Type} (d : PropDset α) (p : Nat × α) : PropDset α :=
  { d with data := fun k => if k = p.1 then p.2 else d.data k }

/-- One plus the largest row index addressed by a write batch
(`max(index) + 1`); `0` for an empty batch. -/
def maxIndexP1 {α : Type} (pairs : List (Nat × α)) : Nat :=
  pairs.foldl (fun m p => max m (p.1 + 1)) 0

/-- Modelled from the spec: `update_prop_dset(dataset, data, index)` writes
`data` at row positions `index`; if `index` addresses rows beyond the
current length the dataset is first resized to
`max(current, max(index) + 1)` (spec §4.2).  The write batch is given as
(index, value) pairs. -/
def update_prop_dset {α : Type} (sent : α) (d : PropDset α)
    (pairs : List (Nat × α)) : PropDset α :=
  let d1 := resize_dset sent d (max d.len (maxIndexP1 pairs))
  pairs.foldl writeCell d1

/-- Element dtypes of a property dataset, mirroring the keys of
`DTYPE_DICT` in `dataCAT/functions.py` plus fixed-width text. -/
inductive Dtype : Type
  | int64
  | float64
  | bool_
  | bytes_
deriving DecidableEq

/-- Symbolic cell values: integers, rationals with a distinguished NaN,
booleans and text. -/
inductive DVal : Type
  | int (i : Int)
  | float (q : Rat)
  | nan
  | bool (b : Bool)
  | str (s : String)
deriving DecidableEq

/-- Modelled from the spec: the type-appropriate sentinel used to fill
newly exposed rows — `-1` for integers, NaN for floats, `False` for
booleans, empty text for strings (spec §4.2). -/
def sentinelOf : Dtype → DVal
  | .int64 => .int (-1)
  | .float64 => .nan
  | .bool_ => .bool false
  | .bytes_ => .str ("")

/-! ### Group validation -/

/-- A member dataset of a property group as seen by the validator: its
axis-0 length and the dimension scale attached on axis 0, if any
(scales are compared by object identity, modelled as a numeric id). -/
structure HDataset where
  len : Nat
  scaleId : Option Nat
deriving DecidableEq

/-- A property group: the shared index scale (its identity and length)
plus the named member datasets. -/
structure PropGroup where
  scaleId : Nat
  scaleLen : Nat
  dsets : List (String × HDataset)

/-- A string `s` contains `sub` as a substring. -/
def containsStr (s sub : String) : Prop :=
  ∃ a b : String, s = a ++ sub ++ b

/-- Modelled from the spec: `validate_prop_group` checks, for every member
dataset, that (a) a dimension scale is attached on axis 0, (b) that scale
is the group's shared index scale, and (c) the dataset's axis-0 length
equals the scale's length, failing with a descriptive message naming the
broken invariant (spec §4.2).  This helper walks the member list. -/
def validateDsets (sid slen : Nat) : List (String × HDataset) → Except String Unit
  | [] => .ok ()
  | (nm, d) :: rest =>
    if d.scaleId = none then
      .error (("dataset " ++ nm ++ ": ") ++ "missing dataset scale")
    else if d.scaleId ≠ some sid then
      .error (("dataset " ++ nm ++ ": ") ++ "invalid dataset scale")
    else if d.len ≠ slen then
      .error (("dataset " ++ nm ++ ": ") ++ "invalid dataset length")
    else validateDsets sid slen rest

/-- Modelled from the spec: the group-level structural invariant check
(spec §4.2; `property_dset.py` is absent from the sources). -/
def validate_prop_group (g : PropGroup) : Except String Unit :=
  validateDsets g.scaleId g.scaleLen g.dsets

/-! ### Structural-record arrays: `update_pdb_shape` / `append_pdb_values`
(from `dataCAT/functions.py`) -/

/-- An incoming 1-D member array of a PDB container (`n` rows). -/
structure Ar1 (α : Type) where
  n : Nat
  data : Nat → α

/-- An incoming 2-D member array of a PDB container (`n` rows, `j`
columns). -/
structure Ar2 (α : Type) where
  n : Nat
  j : Nat
  data : Nat → Nat → α

/-- A stored 1-D hdf5 dataset: its length, cell contents and fill value. -/
structure Ds1 (α : Type) where
  len : Nat
  data : Nat → α
  fill : α

/-- A stored 2-D hdf5 dataset: its shape, cell contents and fill value. -/
structure Ds2 (α : Type) where
  rows : Nat
  cols : Nat
  data : Nat → Nat → α
  fill : α

/-- A member array of a PDB container, 1-D or 2-D. -/
inductive PArr (α : Type) : Type
  | one (a : Ar1 α)
  | two (a : Ar2 α)

/-- A member dataset of an hdf5 group, 1-D or 2-D. -/
inductive PDset (α : Type) : Type
  | one (d : Ds1 α)
  | two (d : Ds2 α)

/-- Number of rows of a member array, mirroring `len(ar)`. -/
def arrLen {α : Type} : PArr α → Nat
  | .one a => a.n
  | .two a => a.n

/-- Resizing a 1-D dataset: kept cells retain their content, newly exposed
cells hold the dataset's fill value (h5py resize semantics). -/
def resize1 {α : Type} (d : Ds1 α) (n : Nat) : Ds1 α :=
  { len := n, fill := d.fill,
    data := fun i => if i < d.len then d.data i else d.fill }

/-- Resizing a 2-D dataset: kept cells retain their content, newly exposed
cells hold the dataset's fill value (h5py resize semantics). -/
def resize2 {α : Type} (d : Ds2 α) (r c : Nat) : Ds2 α :=
  { rows := r, cols := c, fill := d.fill,
    data := fun i k => if i < d.rows ∧ k < d.cols then d.data i k else d.fill }

/-- The loop body of `update_pdb_shape`: `shape[0] += len(ar)` and, when
the incoming array is 2-D, `shape[1] = max(shape[1], ar.shape[1])`. -/
def update_pdb_shape_one {α : Type} (d : PDset α) (ar : PArr α) : PDset α :=
  match d, ar with
  | .one ds, a => .one (resize1 ds (ds.len + arrLen a))
  | .two ds, .one a => .two (resize2 ds (ds.rows + a.n) ds.cols)
  | .two ds, .two a => .two (resize2 ds (ds.rows + a.n) (max ds.cols a.j))

/-- The 1-D write of `append_pdb_values`: `dataset[-i:] = ar` with
`i = len(ar)`, i.e. the last `i` rows receive the array's content. -/
def write_tail1 {α : Type} (ds : Ds1 α) (a : Ar1 α) : Ds1 α :=
  { ds with data := fun i =>
      if ds.len - a.n ≤ i ∧ i < ds.len then a.data (i - (ds.len - a.n))
      else ds.data i }

/-- The 2-D write of `append_pdb_values`: `dataset[-i:, :j] = ar` with
`(i, j) = ar.shape`. -/
def write_tail2 {α : Type} (ds : Ds2 α) (a : Ar2 α) : Ds2 α :=
  { ds with data := fun i k =>
      if ds.rows - a.n ≤ i ∧ i < ds.rows ∧ k < a.j then
        a.data (i - (ds.rows - a.n)) k
      else ds.data i k }

/-- The write half of the `append_pdb_values` loop body.  A dimensionality
mismatch between dataset and array would make h5py raise; it is left
unmodelled (the dataset is returned unchanged) and excluded by hypothesis
in every theorem. -/
def append_write_one {α : Type} (d : PDset α) (ar : PArr α) : PDset α :=
  match d, ar with
  | .one ds, .one a => .one (write_tail1 ds a)
  | .two ds, .two a => .two (write_tail2 ds a)
  | d, _ => d

/-- A per-name fold over the container's `(name, array)` pairs, applying
`f` to the group's dataset of that name — the shape of both loops in
`update_pdb_shape` and `append_pdb_values`. -/
def foldNamed {α β : Type} (f : PDset α → β → PDset α)
    (g : String → PDset α) (pdb : List (String × β)) : String → PDset α :=
  pdb.foldl (fun acc p => Function.update acc p.1 (f (acc p.1) p.2)) g

/-- The resize loop of `update_pdb_shape(group, pdb)` over all member
arrays (`dataCAT/functions.py`). -/
def update_pdb_shape {α : Type} (g : String → PDset α)
    (pdb : List (String × PArr α)) : String → PDset α :=
  foldNamed update_pdb_shape_one g pdb

/-- The append path `append_pdb_values(group, pdb)`: first resize every
member dataset via `update_pdb_shape`, then write every incoming array
into the tail rows of its dataset (`dataCAT/functions.py`). -/
def append_pdb_values {α : Type} (g : String → PDset α)
    (pdb : List (String × PArr α)) : String → PDset α :=
  foldNamed append_write_one (update_pdb_shape g pdb) pdb

/-! ### Availability probe: `hdf5_availability` (from `dataCAT/functions.py`) -/

/-- Outcome of running the availability probe for a bounded number of
loop iterations.  `running` marks exhausted fuel (the unbounded probe may
genuinely loop forever); `ok` and `osErr` carry the number of failed open
attempts and the trace of sleep durations performed before returning or
raising; `valueErr` is the eager `ValueError` on a non-positive
`max_attempts`. -/
inductive ProbeOut (α : Type) : Type
  | running
  | ok (failures : Nat) (slept : List α)
  | osErr (failures : Nat) (slept : List α)
  | valueErr
deriving DecidableEq

/-- One `i -= 1` step of the probe's attempt counter; `none` models the
unbounded `np.inf` counter, which never reaches zero. -/
def decOpt : Option Nat → Option Nat
  | none => none
  | some n => some (n - 1)

/-- The `while i:` loop of `hdf5_availability`: attempt an exclusive open;
return on success; otherwise warn, sleep `timeout` seconds, decrement and
retry; once the counter reaches zero, re-raise the last `OSError`.
`attempts k` tells whether the k-th open attempt succeeds, `fuel` bounds
the number of observed iterations. -/
def probeLoop {α : Type} (attempts : Nat → Bool) (timeout : α) :
    Nat → Option Nat → List α → Nat → ProbeOut α
  | _, _, _, 0 => .running
  | k, i, slept, fuel + 1 =>
    if i = some 0 then .osErr k slept
    else if attempts k then .ok k slept
    else probeLoop attempts timeout (k + 1) (decOpt i) (slept ++ [timeout]) fuel

/-- The probe `hdf5_availability(filename, timeout, max_attempts)` of
`dataCAT/functions.py`: `i = max_attempts if max_attempts is not None
else np.inf`; a `ValueError` is raised when `i <= 0`, before any open is
attempted; otherwise the retry loop runs. -/
def hdf5_availability {α : Type} (attempts : Nat → Bool) (timeout : α)
    (max_attempts : Option Int) (fuel : Nat) : ProbeOut α :=
  match max_attempts with
  | some m =>
    if m ≤ 0 then .valueErr
    else probeLoop attempts timeout 0 (some m.toNat) [] fuel
  | none => probeLoop attempts timeout 0 none [] fuel

/-! ### Update Orchestrator (from `dataCAT/database.py`) -/

/-- One row of the tabular update batch together with its slice of the
boolean mask table: the multi-index key (scale value), the `hdf5 index`
bookkeeping column, the `opt` column value, the mask bits of the
`hdf5 index` and `opt` columns, and the values and mask bits of the
property columns. -/
structure DFRow where
  key : Nat
  hdf5Index : Int
  optVal : Bool
  maskOpt : Bool
  maskIdx : Bool
  prop : String → Int
  maskProp : String → Bool

/-- One row of the change-log dataset: the touched dataset names, the
touched row indices, and the overwrite flag recorded in the message. -/
structure LogEntry where
  dsets : List String
  indices : List Int
  overwrite : Bool

/-- The persistent state of one hdf5 group: the shared index scale (its
stored values), the length of the structural datasets (`group['atoms']`),
the named property datasets of `group['properties']`, and the change
log. -/
structure Group where
  scale : List Nat
  atomsLen : Nat
  props : String → Option (PropDset Int)
  log : List LogEntry

/-- Names of the structural datasets written by the PDB container
(`PDBContainer.DSET_NAMES.values()`). -/
def DSET_NAMES : List String := ["atoms", "bonds", "atom_count", "bond_count"]

/-- The reserved column blacklist `Database.PORPERTY_BLACKLIST`:
structural and bookkeeping fields never routed to the Property Dataset
Engine. -/
def PORPERTY_BLACKLIST : List String := ["mol", "opt", "hdf5 index", "settings"]

/-- Rows selected by a parallel boolean series, mirroring
`df.loc[index, ...]` with a boolean `index`. -/
def selectRows (rows : List DFRow) (bs : List Bool) : List DFRow :=
  ((rows.zip bs).filter (fun p => p.2)).map (fun p => p.1)

/-- The write-back `df.loc[index, HDF5_INDEX] = np.arange(i, j)`: the
k-th selected row receives position `start + k` in its `hdf5 index`
column; unselected rows are untouched. -/
def assignPositions : List DFRow → List Bool → Nat → List DFRow
  | [], _, _ => []
  | rs, [], _ => rs
  | r :: rs, b :: bs, p =>
    if b then { r with hdf5Index := Int.ofNat p } :: assignPositions rs bs (p + 1)
    else r :: assignPositions rs bs p

/-- The write-back `df.loc[index, OPT] = True` applied to the selected
rows. -/
def markOpt : List DFRow → List Bool → List DFRow
  | [], _ => []
  | rs, [] => rs
  | r :: rs, b :: bs =>
    (if b then { r with optVal := true } else r) :: markOpt rs bs

/-- The helper `Database._write_hdf5(group, df, index, opt)`: positions
`[len(group['atoms']), len(group['atoms']) + n)` are allocated for the
`n` selected rows and recorded back into the batch, the molecules are
exported through `PDBContainer.to_hdf5(group, index=i:j,
update_scale=not opt)` (modelled from the spec: `to_storage` writes the
container's arrays at the given row positions, resizing the structural
datasets to fit, and extends the shared index scale with the container's
scale values only when `update_scale` is set), one log entry is appended,
and with `opt` set the selected rows' `opt` column is marked `True`. -/
def write_hdf5 (g : Group) (rows : List DFRow) (bs : List Bool)
    (opt : Bool) : Group × List DFRow :=
  let sel := selectRows rows bs
  let n := sel.length
  let i := g.atomsLen
  let rows1 := assignPositions rows bs i
  let scale1 := if opt then g.scale else g.scale ++ sel.map (fun r => r.key)
  let atoms1 := max g.atomsLen (i + n)
  let entry : LogEntry :=
    { dsets := DSET_NAMES, indices := (List.range' i n).map Int.ofNat,
      overwrite := false }
  let rows2 := if opt then markOpt rows1 bs else rows1
  ({ g with scale := scale1, atomsLen := atoms1, log := g.log ++ [entry] }, rows2)

/-- The helper `Database._overwrite_hdf5(group, df, hdf5_series, opt)`: the selected
rows are rewritten in place at their stored positions via
`PDBContainer.to_hdf5(group, index=hdf5_index)` (modelled from the spec:
an in-place write at existing positions, no scale extension), one log
entry is appended, and with `opt` set the rows' `opt` column is marked
`True`. -/
def overwrite_hdf5 (g : Group) (rows : List DFRow) (bs : List Bool)
    (opt : Bool) : Group × List DFRow :=
  let sel := selectRows rows bs
  let entry : LogEntry :=
    { dsets := DSET_NAMES, indices := sel.map (fun r => r.hdf5Index),
      overwrite := true }
  let rows2 := if opt then markOpt rows bs else rows
  ({ g with log := g.log ++ [entry] }, rows2)

/-- Negation of a boolean series, mirroring `~index`. -/
def notBools (bs : List Bool) : List Bool := bs.map (fun b => !b)

/-- The method `Database.update_hdf5(df, df_bool, group, overwrite, status)`: rows
are classified new/existing by the mask column selected by `status`
(`df_bool[HDF5_INDEX]` when `status == 'optimized'`, else
`df_bool[OPT]`); the new rows are written via `_write_hdf5` when their
stored `hdf5 index` series is truthy (`new.any()`), and with `overwrite`
the existing rows are rewritten via `_overwrite_hdf5` when their series
is truthy. -/
def update_hdf5 (g : Group) (rows : List DFRow) (overwrite : Bool)
    (status : Option String) : Group × List DFRow :=
  let isOpt := status = some ("optimized")
  let bs := rows.map (fun r => if isOpt then r.maskIdx else r.maskOpt)
  let newAny := ((selectRows rows bs).map (fun r => r.hdf5Index)).any (fun x => x ≠ 0)
  let oldAny :=
    ((selectRows rows (notBools bs)).map (fun r => r.hdf5Index)).any (fun x => x ≠ 0)
  let (g1, rows1) := if newAny then write_hdf5 g rows bs isOpt else (g, rows)
  if overwrite && oldAny then overwrite_hdf5 g1 rows1 (notBools bs) isOpt
  else (g1, rows1)

/-- Modelled from the spec: `create_prop_dset(group, name, dtype, ...)`
allocates a new growable dataset bound to the group's index scale (spec
§4.2); by the §3 invariant its axis-0 length equals the scale's length,
sentinel-filled (`-1` for the integer-valued datasets modelled here). -/
def create_prop_dset (g : Group) : PropDset Int :=
  { len := g.scale.length, data := fun _ => -1 }

/-- The loop body of `Database._update_properties` for one property
column `n`: the affected rows are `df_bool[n]` when `overwrite` is unset
and all rows (`slice(None)`) otherwise; the dataset is fetched or
created, updated via `update_prop_dset` at the rows' `hdf5 index`
positions, and one log entry is appended. -/
def updatePropColumn (g : Group) (rows : List DFRow) (n : String)
    (overwrite : Bool) : Group :=
  let sel := if overwrite then rows else rows.filter (fun r => r.maskProp n)
  let pairs := sel.map (fun r => (r.hdf5Index.toNat, r.prop n))
  let d0 := (g.props n).getD (create_prop_dset g)
  let d1 := update_prop_dset (-1 : Int) d0 pairs
  { g with
    props := Function.update g.props n (some d1),
    log := g.log ++
      [{ dsets := [n], indices := sel.map (fun r => r.hdf5Index),
         overwrite := overwrite }] }

/-- The loop of `Database._update_properties(group, df, df_bool, columns,
overwrite)`: every level-0 property column outside
`PORPERTY_BLACKLIST` is dispatched through `updatePropColumn`. -/
def update_properties (g : Group) (rows : List DFRow)
    (columns : List String) (overwrite : Bool) : Group :=
  (columns.filter (fun c => !(PORPERTY_BLACKLIST.contains c))).foldl
    (fun acc n => updatePropColumn acc rows n overwrite) g

/-- The method `Database.from_df(df, df_bool, name, columns, overwrite, status)`:
the effective column labels must be a 2-level MultiIndex — checked
before the availability probe and before the hdf5 file is opened —
after which `update_hdf5` and `_update_properties` run on the group.
`columnsLevels` is `len(getattr(df_columns, 'levels', ()))`. -/
def from_df (g : Group) (rows : List DFRow) (columns : List String)
    (columnsLevels : Nat) (overwrite : Bool) (status : Option String) :
    Option String × Group :=
  if columnsLevels ≠ 2 then (some ("Expected a 2-level MultiIndex"), g)
  else
    let (g1, rows1) := update_hdf5 g rows overwrite status
    let g2 := update_properties g1 rows1 columns overwrite
    (none, g2)

/-! ### Document-store mirror: `Database.update_mongodb`
(from `dataCAT/database.py`) -/

/-- A MongoDB collection keyed by its composite index key, modelled as an
association list of (key, document-body) pairs. -/
abbrev Coll : Type := List (String × Int)

/-- Key membership in a collection. -/
def hasKey (c : Coll) (k : String) : Bool :=
  c.any (fun p => p.1 = k)

/-- An ordered `insert_many`: documents are inserted one by one until the
first duplicate key, at which point a `DuplicateKeyError` is raised
(`true` in the returned flag) with the preceding documents already
inserted. -/
def insert_many (c : Coll) : List (String × Int) → Coll × Bool
  | [] => (c, false)
  | it :: rest =>
    if hasKey c it.1 then (c, true)
    else insert_many (c ++ [it]) rest

/-- The call `replace_one(filter_, item)`: the stored document matching the key is
replaced. -/
def replace_one (c : Coll) (k : String) (v : Int) : Coll :=
  c.map (fun p => if p.1 = k then (k, v) else p)

/-- A Python generator over the batch's row-dictionaries: the underlying
items plus the number already consumed.  `df_to_mongo_dict` returns such
a generator (`as_gen=True` is the default). -/
structure GenState where
  items : List (String × Int)
  pos : Nat

/-- The items a further iteration of the generator still yields. -/
def genRemaining (g : GenState) : List (String × Int) :=
  g.items.drop g.pos

/-- The method `Database.update_mongodb`: `collection.insert_many(dict_gen)` is
attempted first — consuming the generator in full — returning on
success; on `DuplicateKeyError` the code falls back to iterating
`dict_gen` again, inserting items one at a time and, on a per-item
duplicate key, replacing the stored document when `overwrite` is set and
skipping it otherwise. -/
def update_mongodb (c : Coll) (gen : GenState) (overwrite : Bool) : Coll :=
  let docs := genRemaining gen
  let gen1 : GenState := { gen with pos := gen.items.length }
  let (c1, raised) := insert_many c docs
  if !raised then c1
  else
    (genRemaining gen1).foldl
      (fun acc it =>
        if hasKey acc it.1 then
          if overwrite then replace_one acc it.1 it.2 else acc
        else acc ++ [it])
      c1

/-! ## Helper lemmas: property datasets -/

theorem foldl_writeCell_len {α : Type} (pairs : List (Nat × α)) (d : PropDset α) :
    (pairs.foldl writeCell d).len = d.len := by
  induction pairs generalizing d with
  | nil => rfl
  | cons p rest ih => rw [List.foldl_cons, ih]; rfl

theorem resize_dset_len {α : Type} (sent : α) (d : PropDset α) (n : Nat) :
    (resize_dset sent d n).len = max d.len n := by
  unfold resize_dset
  split
  · exact (Nat.max_eq_left (by assumption)).symm
  · exact (Nat.max_eq_right (Nat.le_of_not_le (by assumption))).symm

theorem update_prop_dset_len {α : Type} (sent : α) (d : PropDset α)
    (pairs : List (Nat × α)) :
    (update_prop_dset sent d pairs).len = max d.len (maxIndexP1 pairs) := by
  unfold update_prop_dset
  rw [foldl_writeCell_len, resize_dset_len, ← Nat.max_assoc, Nat.max_self]

theorem foldl_writeCell_not_mem {α : Type} (pairs : List (Nat × α))
    (d : PropDset α) (k : Nat) (h : k ∉ pairs.map Prod.fst) :
    (pairs.foldl writeCell d).data k = d.data k := by
  induction pairs generalizing d with
  | nil => rfl
  | cons p rest ih =>
    simp only [List.map_cons, List.mem_cons, not_or] at h
    rw [List.foldl_cons, ih _ h.2]
    simp [writeCell, h.1]

theorem foldl_writeCell_mem {α : Type} (pairs : List (Nat × α)) (d : PropDset α)
    (hnd : (pairs.map Prod.fst).Nodup) (p : Nat × α) (hp : p ∈ pairs) :
    (pairs.foldl writeCell d).data p.1 = p.2 := by
  induction pairs generalizing d with
  | nil => cases hp
  | cons q rest ih =>
    simp only [List.map_cons, List.nodup_cons] at hnd
    rw [List.foldl_cons]
    rcases List.mem_cons.1 hp with rfl | hp
    · rw [foldl_writeCell_not_mem _ _ _ hnd.1]
      simp [writeCell]
    · exact ih _ hnd.2 hp

theorem resize_dset_data_lt {α : Type} (sent : α) (d : PropDset α) (n k : Nat)
    (hk : k < d.len) : (resize_dset sent d n).data k = d.data k := by
  unfold resize_dset
  split
  · rfl
  · simp [hk]

theorem resize_dset_data_ge {α : Type} (sent : α) (d : PropDset α) (n k : Nat)
    (h1 : d.len ≤ k) (h2 : d.len < n) : (resize_dset sent d n).data k = sent := by
  unfold resize_dset
  rw [if_neg (by omega)]
  simp only
  rw [if_neg (by omega)]

/-! ## Claim C2 -/

/-- C2: for every call to `update_prop_dset` whose index addresses rows at
or beyond the dataset's current axis-0 length, the post-state satisfies:
dataset length = max(previous length, max(index) + 1); every previously
written row is unchanged; and every newly exposed row not covered by this
call holds the type-appropriate sentinel (`-1` for integers, NaN for
floats, `False` for booleans, empty text for strings). -/
theorem update_prop_dset_beyond_length (dt : Dtype) (d : PropDset DVal)
    (pairs : List (Nat × DVal)) (h : ∀ p ∈ pairs, d.len ≤ p.1) :
    (update_prop_dset (sentinelOf dt) d pairs).len =
      max d.len (maxIndexP1 pairs) ∧
    (∀ k, k < d.len →
      (update_prop_dset (sentinelOf dt) d pairs).data k = d.data k) ∧
    (∀ k, d.len ≤ k → k < (update_prop_dset (sentinelOf dt) d pairs).len →
      k ∉ pairs.map Prod.fst →
      (update_prop_dset (sentinelOf dt) d pairs).data k = sentinelOf dt) := by
  refine ⟨update_prop_dset_len _ _ _, ?_, ?_⟩
  · intro k hk
    have hnot : k ∉ pairs.map Prod.fst := by
      intro hmem
      obtain ⟨p, hp, hpk⟩ := List.mem_map.1 hmem
      exact absurd hk (by have := h p hp; omega)
    unfold update_prop_dset
    rw [foldl_writeCell_not_mem _ _ _ hnot, resize_dset_data_lt _ _ _ _ hk]
  · intro k h1 h2 h3
    rw [update_prop_dset_len] at h2
    have hlt : d.len < max d.len (maxIndexP1 pairs) := by omega
    unfold update_prop_dset
    rw [foldl_writeCell_not_mem _ _ _ h3, resize_dset_data_ge _ _ _ _ h1 hlt]

/-- Witness for C2: a length-1 dataset updated at row 2 grows to length 3,
and the newly exposed, unwritten row 1 holds the integer sentinel. -/
theorem update_prop_dset_beyond_length_witness :
    (∀ p ∈ [((2 : Nat), DVal.int 5)],
      (PropDset.mk 1 (fun _ => DVal.int 7)).len ≤ p.1) ∧
    (update_prop_dset (sentinelOf .int64) (PropDset.mk 1 (fun _ => DVal.int 7))
      [(2, DVal.int 5)]).len = 3 ∧
    (update_prop_dset (sentinelOf .int64) (PropDset.mk 1 (fun _ => DVal.int 7))
      [(2, DVal.int 5)]).data 1 = sentinelOf .int64 := by
  have h := update_prop_dset_beyond_length .int64
    (PropDset.mk 1 (fun _ => DVal.int 7)) [(2, DVal.int 5)] (by decide)
  exact ⟨by decide, by decide, h.2.2 1 (by decide) (by decide) (by decide)⟩

/-! ## Claim C3 -/

theorem containsStr_of_append (a sub : String) : containsStr (a ++ sub) sub :=
  ⟨a, "", by rw [String.append_empty]⟩

theorem validateDsets_ok_iff (sid slen : Nat) (l : List (String × HDataset)) :
    validateDsets sid slen l = .ok () ↔
      ∀ p ∈ l, p.2.scaleId = some sid ∧ p.2.len = slen := by
  induction l with
  | nil => simp [validateDsets]
  | cons hd tl ih =>
    obtain ⟨nm, d⟩ := hd
    unfold validateDsets
    by_cases h0 : d.scaleId = none
    · rw [if_pos h0]
      constructor
      · intro h; exact absurd h (by simp)
      · intro hall
        have h1 := (hall (nm, d) (List.mem_cons_self _ _)).1
        rw [h0] at h1; cases h1
    · rw [if_neg h0]
      by_cases h1 : d.scaleId = some sid
      · rw [if_neg (not_not_intro h1)]
        by_cases h2 : d.len = slen
        · rw [if_neg (not_not_intro h2), ih]
          constructor
          · intro hall p hp
            rcases List.mem_cons.1 hp with rfl | hp
            · exact ⟨h1, h2⟩
            · exact hall p hp
          · intro hall p hp
            exact hall p (List.mem_cons_of_mem _ hp)
        · rw [if_pos h2]
          constructor
          · intro h; exact absurd h (by simp)
          · intro hall
            exact absurd (hall (nm, d) (List.mem_cons_self _ _)).2 h2
      · rw [if_pos h1]
        constructor
        · intro h; exact absurd h (by simp)
        · intro hall
          exact absurd (hall (nm, d) (List.mem_cons_self _ _)).1 h1

theorem validateDsets_error (sid slen : Nat) (l : List (String × HDataset))
    (msg : String) (herr : validateDsets sid slen l = .error msg) :
    ∃ p ∈ l,
      (p.2.scaleId = none ∧ containsStr msg ("missing dataset scale")) ∨
      (∃ s, p.2.scaleId = some s ∧ s ≠ sid ∧
        containsStr msg ("invalid dataset scale")) ∨
      (p.2.scaleId = some sid ∧ p.2.len ≠ slen ∧
        containsStr msg ("invalid dataset length")) := by
  induction l with
  | nil => simp [validateDsets] at herr
  | cons hd tl ih =>
    obtain ⟨nm, d⟩ := hd
    unfold validateDsets at herr
    by_cases h0 : d.scaleId = none
    · rw [if_pos h0] at herr
      obtain rfl := (Except.error.inj herr).symm
      exact ⟨(nm, d), List.mem_cons_self _ _,
        Or.inl ⟨h0, containsStr_of_append _ _⟩⟩
    · rw [if_neg h0] at herr
      by_cases h1 : d.scaleId = some sid
      · rw [if_neg (not_not_intro h1)] at herr
        by_cases h2 : d.len = slen
        · rw [if_neg (not_not_intro h2)] at herr
          obtain ⟨p, hp, hcase⟩ := ih herr
          exact ⟨p, List.mem_cons_of_mem _ hp, hcase⟩
        · rw [if_pos h2] at herr
          obtain rfl := (Except.error.inj herr).symm
          exact ⟨(nm, d), List.mem_cons_self _ _,
            Or.inr (Or.inr ⟨h1, h2, containsStr_of_append _ _⟩)⟩
      · rw [if_pos h1] at herr
        obtain rfl := (Except.error.inj herr).symm
        obtain ⟨s, hs⟩ := Option.ne_none_iff_exists'.mp h0
        have hssid : s ≠ sid := fun h => h1 (by rw [hs, h])
        exact ⟨(nm, d), List.mem_cons_self _ _,
          Or.inr (Or.inl ⟨s, hs, hssid, containsStr_of_append _ _⟩)⟩

/-- C3: `validate_prop_group` succeeds iff every member dataset has a
dimension scale attached on axis 0, that scale is the group's shared
index scale object, and the dataset's axis-0 length equals the scale's
length; on violation it fails with a message containing "missing dataset
scale", "invalid dataset scale" or "invalid dataset length" according to
which invariant broke for the offending dataset. -/
theorem validate_prop_group_iff (g : PropGroup) :
    (validate_prop_group g = .ok () ↔
      ∀ p ∈ g.dsets, p.2.scaleId = some g.scaleId ∧ p.2.len = g.scaleLen) ∧
    (∀ msg, validate_prop_group g = .error msg →
      ∃ p ∈ g.dsets,
        (p.2.scaleId = none ∧ containsStr msg ("missing dataset scale")) ∨
        (∃ s, p.2.scaleId = some s ∧ s ≠ g.scaleId ∧
          containsStr msg ("invalid dataset scale")) ∨
        (p.2.scaleId = some g.scaleId ∧ p.2.len ≠ g.scaleLen ∧
          containsStr msg ("invalid dataset length"))) :=
  ⟨validateDsets_ok_iff g.scaleId g.scaleLen g.dsets,
   fun msg herr => validateDsets_error g.scaleId g.scaleLen g.dsets msg herr⟩

/-- Witness for C3: a group whose only member lacks an attached scale is
rejected with a message containing "missing dataset scale", and a valid
one-member group passes. -/
theorem validate_prop_group_iff_witness :
    (∃ p ∈ (PropGroup.mk 7 100 [("test1", ⟨100, none⟩)]).dsets,
      (p.2.scaleId = none ∧
        containsStr ("dataset test1: missing dataset scale")
          "missing dataset scale") ∨
      (∃ s, p.2.scaleId = some s ∧ s ≠ 7 ∧
        containsStr ("dataset test1: missing dataset scale")
          "invalid dataset scale") ∨
      (p.2.scaleId = some 7 ∧ p.2.len ≠ 100 ∧
        containsStr ("dataset test1: missing dataset scale")
          "invalid dataset length")) ∧
    validate_prop_group (PropGroup.mk 7 100 [("test4", ⟨100, some 7⟩)]) =
      .ok () := by
  constructor
  · exact (validate_prop_group_iff (PropGroup.mk 7 100 [("test1", ⟨100, none⟩)])).2
      ("dataset test1: missing dataset scale") rfl
  · exact (validate_prop_group_iff (PropGroup.mk 7 100
      [("test4", ⟨100, some 7⟩)])).1.2 (by decide)

/-! ## Claims C5 and C10 -/

theorem probeLoop_success {α : Type} (a : Nat → Bool) (t : α) :
    ∀ (dcount k : Nat) (i : Option Nat) (s : List α) (fuel : Nat),
      (∀ j, j < dcount → a (k + j) = false) → a (k + dcount) = true →
      (∀ m, i = some m → dcount < m) → dcount < fuel →
      probeLoop a t k i s fuel = .ok (k + dcount) (s ++ List.replicate dcount t) := by
  intro dcount
  induction dcount with
  | zero =>
    intro k i s fuel _ h2 h3 h4
    obtain ⟨f, rfl⟩ := Nat.exists_eq_add_of_lt h4
    rw [Nat.add_zero] at h2
    show probeLoop a t k i s (0 + f + 1) = _
    unfold probeLoop
    rw [if_neg (fun hi => by have := h3 0 hi; omega), if_pos h2]
    simp
  | succ dc ih =>
    intro k i s fuel h1 h2 h3 h4
    obtain ⟨f, rfl⟩ := Nat.exists_eq_add_of_lt h4
    have hak : a k = false := by simpa using h1 0 (by omega)
    show probeLoop a t k i s (dc + 1 + f + 1) = _
    unfold probeLoop
    rw [if_neg (fun hi => by have := h3 0 hi; omega)]
    rw [if_neg (by simp [hak])]
    have step := ih (k + 1) (decOpt i) (s ++ [t]) (dc + 1 + f)
      (fun j hj => by have := h1 (j + 1) (by omega); rwa [show k + 1 + j = k + (j + 1) by omega])
      (by rwa [show k + 1 + dc = k + (dc + 1) by omega])
      (fun m hm => by
        cases i with
        | none => simp [decOpt] at hm
        | some n =>
          have hn := h3 n rfl
          simp [decOpt] at hm
          omega)
      (by omega)
    rw [step, show k + 1 + dc = k + (dc + 1) by omega, List.append_assoc]
    simp [List.replicate_succ]

theorem probeLoop_exhaust {α : Type} (a : Nat → Bool) (t : α) :
    ∀ (m k : Nat) (s : List α) (fuel : Nat),
      (∀ j, j < m → a (k + j) = false) → m < fuel →
      probeLoop a t k (some m) s fuel = .osErr (k + m) (s ++ List.replicate m t) := by
  intro m
  induction m with
  | zero =>
    intro k s fuel _ h2
    obtain ⟨f, rfl⟩ := Nat.exists_eq_add_of_lt h2
    show probeLoop a t k (some 0) s (0 + f + 1) = _
    unfold probeLoop
    simp
  | succ mc ih =>
    intro k s fuel h1 h2
    obtain ⟨f, rfl⟩ := Nat.exists_eq_add_of_lt h2
    have hak : a k = false := by simpa using h1 0 (by omega)
    show probeLoop a t k (some (mc + 1)) s (mc + 1 + f + 1) = _
    unfold probeLoop
    rw [if_neg (by simp)]
    rw [if_neg (by simp [hak])]
    have step := ih (k + 1) (s ++ [t]) (mc + 1 + f)
      (fun j hj => by have := h1 (j + 1) (by omega); rwa [show k + 1 + j = k + (j + 1) by omega])
      (by omega)
    have hdec : decOpt (some (mc + 1)) = some mc := by simp [decOpt]
    rw [hdec, step, show k + 1 + mc = k + (mc + 1) by omega, List.append_assoc]
    simp [List.replicate_succ]

theorem probeLoop_unbounded_no_raise {α : Type} (a : Nat → Bool) (t : α) :
    ∀ (fuel k : Nat) (s : List α) (failures : Nat) (slept : List α),
      probeLoop a t k none s fuel ≠ .osErr failures slept := by
  intro fuel
  induction fuel with
  | zero => intro k s failures slept h; cases h
  | succ f ih =>
    intro k s failures slept h
    unfold probeLoop at h
    rw [if_neg (by simp)] at h
    by_cases ha : a k
    · rw [if_pos ha] at h; cases h
    · rw [if_neg ha] at h
      exact ih _ _ _ _ h

/-- C5: the availability probe returns as soon as one exclusive open
succeeds (at the first successful attempt `k`, after `k` failures each
followed by a sleep of `timeout` seconds); with a positive bounded
`max_attempts = m` it raises the pending `OSError` after `m` consecutive
failed attempts, each followed by a sleep; and with `max_attempts = None`
it retries without bound, returning at the first success and never
raising from attempt exhaustion. -/
theorem hdf5_availability_retry {α : Type} (attempts : Nat → Bool) (timeout : α) :
    (∀ (m : Int) (k fuel : Nat), 0 < m → k < m.toNat → k < fuel →
      (∀ j, j < k → attempts j = false) → attempts k = true →
      hdf5_availability attempts timeout (some m) fuel =
        .ok k (List.replicate k timeout)) ∧
    (∀ (m : Int) (fuel : Nat), 0 < m → m.toNat < fuel →
      (∀ j, j < m.toNat → attempts j = false) →
      hdf5_availability attempts timeout (some m) fuel =
        .osErr m.toNat (List.replicate m.toNat timeout)) ∧
    (∀ (k fuel : Nat), k < fuel →
      (∀ j, j < k → attempts j = false) → attempts k = true →
      hdf5_availability attempts timeout none fuel =
        .ok k (List.replicate k timeout)) ∧
    (∀ (fuel failures : Nat) (slept : List α),
      hdf5_availability attempts timeout none fuel ≠ .osErr failures slept) := by
  refine ⟨?_, ?_, ?_, ?_⟩
  · intro m k fuel hm hk hf h1 h2
    simp only [hdf5_availability]
    rw [if_neg (by omega)]
    have := probeLoop_success attempts timeout k 0 (some m.toNat) [] fuel
      (by simpa using h1) (by simpa using h2)
      (fun n hn => by cases Option.some.inj hn; exact hk) (by omega)
    simpa using this
  · intro m fuel hm hf h1
    simp only [hdf5_availability]
    rw [if_neg (by omega)]
    have := probeLoop_exhaust attempts timeout m.toNat 0 [] fuel
      (by simpa using h1) (by omega)
    simpa using this
  · intro k fuel hf h1 h2
    simp only [hdf5_availability]
    have := probeLoop_success attempts timeout k 0 none [] fuel
      (by simpa using h1) (by simpa using h2) (fun n hn => by cases hn) (by omega)
    simpa using this
  · intro fuel failures slept
    simp only [hdf5_availability]
    exact probeLoop_unbounded_no_raise attempts timeout fuel 0 [] failures slept

/-- Witness for C5: with success on the third attempt (index 2) and a
bound of 10, the probe returns after two failed attempts and two sleeps
of 7 seconds; with the same trace and no bound it does too; and with a
bound of 2 and only failures it raises after exactly 2 attempts. -/
theorem hdf5_availability_retry_witness :
    (0 < (10 : Int) ∧
      hdf5_availability (fun n => n == 2) (7 : Nat) (some 10) 5 =
        .ok 2 (List.replicate 2 7)) ∧
    (0 < (2 : Int) ∧
      hdf5_availability (fun _ => false) (7 : Nat) (some 2) 5 =
        .osErr 2 (List.replicate 2 7)) ∧
    hdf5_availability (fun n => n == 2) (7 : Nat) none 5 =
      .ok 2 (List.replicate 2 7) := by
  refine ⟨⟨by decide, ?_⟩, ⟨by decide, ?_⟩, ?_⟩
  · exact (hdf5_availability_retry (fun n => n == 2) (7 : Nat)).1 10 2 5
      (by decide) (by decide) (by decide) (by decide) (by decide)
  · exact (hdf5_availability_retry (fun _ => false) (7 : Nat)).2.1 2 5
      (by decide) (by decide) (by decide)
  · exact (hdf5_availability_retry (fun n => n == 2) (7 : Nat)).2.2.1 2 5
      (by decide) (by decide) (by decide)

/-- C10: calling `hdf5_availability` with an integer `max_attempts ≤ 0`
raises a `ValueError` immediately; the result does not depend on the
open-attempt outcomes or on the iteration budget, showing the retry loop
is never entered and no open is attempted. -/
theorem hdf5_availability_nonpositive_max_attempts {α : Type}
    (attempts : Nat → Bool) (timeout : α) (m : Int) (h : m ≤ 0) (fuel : Nat) :
    hdf5_availability attempts timeout (some m) fuel = .valueErr := by
  simp only [hdf5_availability]
  rw [if_pos h]

/-- Witness for C10: `max_attempts = -1` yields the `ValueError` even
with an always-succeeding open. -/
theorem hdf5_availability_nonpositive_max_attempts_witness :
    ((-1 : Int) ≤ 0) ∧
    hdf5_availability (fun _ => true) (5 : Nat) (some (-1)) 100 = .valueErr :=
  ⟨by decide,
   hdf5_availability_nonpositive_max_attempts (fun _ => true) (5 : Nat) (-1)
     (by decide) 100⟩

/-! ## Claim C7 -/

theorem foldNamed_not_mem {α β : Type} (f : PDset α → β → PDset α)
    (g : String → PDset α) (pdb : List (String × β)) (name : String)
    (h : name ∉ pdb.map Prod.fst) : foldNamed f g pdb name = g name := by
  induction pdb generalizing g with
  | nil => rfl
  | cons p rest ih =>
    simp only [List.map_cons, List.mem_cons, not_or] at h
    show foldNamed f (Function.update g p.1 (f (g p.1) p.2)) rest name = g name
    rw [ih _ h.2, Function.update_noteq h.1]

theorem foldNamed_mem {α β : Type} (f : PDset α → β → PDset α)
    (g : String → PDset α) (pdb : List (String × β)) (name : String) (ar : β)
    (hnd : (pdb.map Prod.fst).Nodup) (hmem : (name, ar) ∈ pdb) :
    foldNamed f g pdb name = f (g name) ar := by
  induction pdb generalizing g with
  | nil => cases hmem
  | cons p rest ih =>
    simp only [List.map_cons, List.nodup_cons] at hnd
    show foldNamed f (Function.update g p.1 (f (g p.1) p.2)) rest name = _
    rcases List.mem_cons.1 hmem with heq | hmem
    · obtain rfl : p = (name, ar) := heq.symm
      rw [foldNamed_not_mem _ _ _ _ hnd.1, Function.update_same]
    · have hne : p.1 ≠ name := by
        intro hc
        exact hnd.1 (hc ▸ List.mem_map.2 ⟨(name, ar), hmem, rfl⟩)
      rw [ih _ hnd.2 hmem, Function.update_noteq (Ne.symm hne)]

/-- C7: for every structural-container append (`update_pdb_shape` followed
by the tail writes of `append_pdb_values`), each member dataset's
second-dimension width afterwards equals max(previous width, incoming
array width) — the width never shrinks — its axis-0 length grows by
exactly the number of incoming rows, and previously stored rows keep
their prior content.  (The 1-D members have no second dimension; for them
the length and content clauses are stated.) -/
theorem append_pdb_values_grows {α : Type} (g : String → PDset α)
    (pdb : List (String × PArr α)) (name : String) (ar : PArr α)
    (hnd : (pdb.map Prod.fst).Nodup) (hmem : (name, ar) ∈ pdb) :
    (∀ ds a, g name = .two ds → ar = .two a →
      ∃ ds2, append_pdb_values g pdb name = .two ds2 ∧
        ds2.cols = max ds.cols a.j ∧ ds.cols ≤ ds2.cols ∧
        ds2.rows = ds.rows + a.n ∧
        ∀ i k, i < ds.rows → k < ds.cols → ds2.data i k = ds.data i k) ∧
    (∀ ds a, g name = .one ds → ar = .one a →
      ∃ ds1, append_pdb_values g pdb name = .one ds1 ∧
        ds1.len = ds.len + a.n ∧
        ∀ i, i < ds.len → ds1.data i = ds.data i) := by
  have hshape : update_pdb_shape g pdb name = update_pdb_shape_one (g name) ar :=
    foldNamed_mem _ _ _ _ _ hnd hmem
  have happ : append_pdb_values g pdb name =
      append_write_one (update_pdb_shape_one (g name) ar) ar := by
    unfold append_pdb_values
    rw [foldNamed_mem _ _ _ _ _ hnd hmem, hshape]
  constructor
  · intro ds a hg ha
    rw [hg, ha] at happ
    refine ⟨write_tail2 (resize2 ds (ds.rows + a.n) (max ds.cols a.j)) a,
      happ, rfl, Nat.le_max_left _ _, rfl, ?_⟩
    intro i k hi hk
    show (if ds.rows + a.n - a.n ≤ i ∧ i < ds.rows + a.n ∧ k < a.j then _
      else (resize2 ds (ds.rows + a.n) (max ds.cols a.j)).data i k) = ds.data i k
    rw [if_neg (by omega)]
    show (if i < ds.rows ∧ k < ds.cols then ds.data i k else ds.fill) = ds.data i k
    rw [if_pos ⟨hi, hk⟩]
  · intro ds a hg ha
    rw [hg, ha] at happ
    refine ⟨write_tail1 (resize1 ds (ds.len + a.n)) a, happ, rfl, ?_⟩
    intro i hi
    show (if ds.len + a.n - a.n ≤ i ∧ i < ds.len + a.n then _
      else (resize1 ds (ds.len + a.n)).data i) = ds.data i
    rw [if_neg (by omega)]
    show (if i < ds.len then ds.data i else ds.fill) = ds.data i
    rw [if_pos hi]

/-- Witness for C7: appending a 1-row, 2-column array to a 1 x 1 dataset
widens it to 2 columns, grows it to 2 rows, and keeps the stored cell. -/
theorem append_pdb_values_grows_witness :
    ((([("atoms", PArr.two (Ar2.mk 1 2 (fun _ _ => (5 : Int))))]).map
      Prod.fst).Nodup) ∧
    ∃ ds2, append_pdb_values
        (fun _ => PDset.two (Ds2.mk 1 1 (fun _ _ => (3 : Int)) 0))
        [("atoms", PArr.two (Ar2.mk 1 2 (fun _ _ => (5 : Int))))] "atoms" =
        .two ds2 ∧
      ds2.cols = max 1 2 ∧ 1 ≤ ds2.cols ∧ ds2.rows = 1 + 1 ∧
      ∀ i k, i < 1 → k < 1 → ds2.data i k = (3 : Int) := by
  refine ⟨by simp, ?_⟩
  have h := (append_pdb_values_grows
    (fun _ => PDset.two (Ds2.mk 1 1 (fun _ _ => (3 : Int)) 0))
    [("atoms", PArr.two (Ar2.mk 1 2 (fun _ _ => (5 : Int))))] "atoms"
    (PArr.two (Ar2.mk 1 2 (fun _ _ => (5 : Int))))
    (by simp) (by simp)).1
    (Ds2.mk 1 1 (fun _ _ => (3 : Int)) 0)
    (Ar2.mk 1 2 (fun _ _ => (5 : Int))) rfl rfl
  exact h

/-! ## Claim C4 -/

theorem update_prop_dset_data_mem {α : Type} (sent : α) (d : PropDset α)
    (pairs : List (Nat × α)) (hnd : (pairs.map Prod.fst).Nodup)
    (p : Nat × α) (hp : p ∈ pairs) :
    (update_prop_dset sent d pairs).data p.1 = p.2 := by
  unfold update_prop_dset
  exact foldl_writeCell_mem _ _ hnd p hp

theorem update_prop_dset_data_not_mem {α : Type} (sent : α) (d : PropDset α)
    (pairs : List (Nat × α)) (k : Nat) (hk : k ∉ pairs.map Prod.fst)
    (hlt : k < d.len) :
    (update_prop_dset sent d pairs).data k = d.data k := by
  unfold update_prop_dset
  rw [foldl_writeCell_not_mem _ _ _ hk, resize_dset_data_lt _ _ _ _ hlt]

/-- C4: in the per-property dispatch of one update call, when `overwrite`
is false only the rows whose boolean mask bit is true for that column are
written to the property dataset — mask-false rows are skipped, their
previously stored cells staying unchanged — and when `overwrite` is true
all selected rows are written unconditionally, ignoring the mask. -/
theorem update_properties_mask_dispatch (g : Group) (rows : List DFRow)
    (n : String) (overwrite : Bool)
    (hnd : (rows.map (fun r => r.hdf5Index.toNat)).Nodup) :
    ∃ d1, (updatePropColumn g rows n overwrite).props n = some d1 ∧
      (overwrite = true → ∀ r ∈ rows,
        d1.data r.hdf5Index.toNat = r.prop n) ∧
      (overwrite = false → ∀ r ∈ rows,
        (r.maskProp n = true → d1.data r.hdf5Index.toNat = r.prop n) ∧
        (r.maskProp n = false →
          r.hdf5Index.toNat < ((g.props n).getD (create_prop_dset g)).len →
          d1.data r.hdf5Index.toNat =
            ((g.props n).getD (create_prop_dset g)).data r.hdf5Index.toNat)) := by
  refine ⟨update_prop_dset (-1) ((g.props n).getD (create_prop_dset g))
    ((if overwrite then rows else rows.filter (fun r => r.maskProp n)).map
      (fun r => (r.hdf5Index.toNat, r.prop n))), ?_, ?_, ?_⟩
  · simp only [updatePropColumn, Function.update_same]
  · rintro rfl r hr
    simp only [if_true]
    exact update_prop_dset_data_mem _ _ _
      (by rw [List.map_map]; exact hnd) _ (List.mem_map.2 ⟨r, hr, rfl⟩)
  · rintro rfl r hr
    simp only [Bool.false_eq_true, if_false]
    constructor
    · intro hmask
      refine update_prop_dset_data_mem _ _ _ ?_ _
        (List.mem_map.2 ⟨r, List.mem_filter.2 ⟨hr, hmask⟩, rfl⟩)
      rw [List.map_map]
      exact ((List.filter_sublist rows).map _).nodup hnd
    · intro hmask hlt
      refine update_prop_dset_data_not_mem _ _ _ _ ?_ hlt
      intro hc
      rw [List.map_map] at hc
      obtain ⟨r2, hr2, hfr⟩ := List.mem_map.1 hc
      have hrr : r2 ∈ rows := (List.mem_filter.1 hr2).1
      have hm2 : r2.maskProp n = true := (List.mem_filter.1 hr2).2
      have heq : r2 = r := List.inj_on_of_nodup_map hnd hrr hr hfr
      rw [heq, hmask] at hm2
      cases hm2

/-- A demonstration group for the C4 witness: an index scale of length 2,
no property datasets yet. -/
def maskDemoGroup : Group := ⟨[0, 1], 2, fun _ => none, []⟩

/-- Demonstration batch for the C4 witness: row at position 0 with an
authoritative cell (mask true, value 10), row at position 1 with a
non-authoritative cell (mask false, value 20). -/
def maskDemoRows : List DFRow :=
  [⟨0, 0, false, true, false, fun _ => 10, fun _ => true⟩,
   ⟨1, 1, false, true, false, fun _ => 20, fun _ => false⟩]

/-- Witness for C4: with `overwrite = False` the mask-true row's value is
written while the mask-false row's previously stored sentinel cell is
untouched. -/
theorem update_properties_mask_dispatch_witness :
    ((maskDemoRows.map (fun r => r.hdf5Index.toNat)).Nodup) ∧
    ∃ d1, (updatePropColumn maskDemoGroup maskDemoRows ("formula") false).props
        "formula" = some d1 ∧
      d1.data 0 = 10 ∧ d1.data 1 = -1 := by
  have hnd : (maskDemoRows.map (fun r => r.hdf5Index.toNat)).Nodup := by
    simp [maskDemoRows]
  obtain ⟨d1, hprops, _, hnov⟩ :=
    update_properties_mask_dispatch maskDemoGroup maskDemoRows ("formula") false hnd
  have h1 := hnov rfl ⟨0, 0, false, true, false, fun _ => 10, fun _ => true⟩
    (List.mem_cons_self _ _)
  have h2 := hnov rfl ⟨1, 1, false, true, false, fun _ => 20, fun _ => false⟩
    (List.mem_cons_of_mem _ (List.mem_cons_self _ _))
  refine ⟨hnd, d1, hprops, h1.1 rfl, ?_⟩
  exact h2.2 rfl (by decide)

/-! ## Claim C1 -/

theorem selectRows_cons_true (r : DFRow) (rs : List DFRow) (bs : List Bool) :
    selectRows (r :: rs) (true :: bs) = r :: selectRows rs bs := by
  simp [selectRows]

theorem selectRows_cons_false (r : DFRow) (rs : List DFRow) (bs : List Bool) :
    selectRows (r :: rs) (false :: bs) = selectRows rs bs := by
  simp [selectRows]

theorem assignPositions_select (rows : List DFRow) (bs : List Bool) (p : Nat) :
    (selectRows (assignPositions rows bs p) bs).map (fun r => r.hdf5Index) =
      (List.range' p (selectRows rows bs).length).map Int.ofNat := by
  induction rows generalizing bs p with
  | nil => cases bs <;> rfl
  | cons r rs ih =>
    cases bs with
    | nil => rfl
    | cons b bt =>
      cases b with
      | true =>
        rw [show assignPositions (r :: rs) (true :: bt) p =
          { r with hdf5Index := Int.ofNat p } :: assignPositions rs bt (p + 1)
          from rfl]
        rw [selectRows_cons_true, selectRows_cons_true, List.map_cons, ih,
          List.length_cons, List.range'_succ, List.map_cons]
      | false =>
        rw [show assignPositions (r :: rs) (false :: bt) p =
          r :: assignPositions rs bt p from rfl]
        rw [selectRows_cons_false, selectRows_cons_false, ih]

/-- C1 (amended): in a non-optimized update call, the `n` new rows
receive exactly the strictly increasing contiguous positions
`[L, L + n)` — where `L` is the index scale's current length, equal to
the structural datasets' length by the group invariant — recorded back
into the batch's `hdf5 index` column, and both the index scale and the
structural datasets grow to length `L + n`.  (The `opt = True` path of
`_write_hdf5` allocates the same positions but leaves the scale
unchanged; see the counterexample.) -/
theorem write_hdf5_contiguous_allocation (g : Group) (rows : List DFRow)
    (bs : List Bool) (hlen : g.scale.length = g.atomsLen) :
    ((selectRows (write_hdf5 g rows bs false).2 bs).map (fun r => r.hdf5Index) =
      (List.range' g.scale.length (selectRows rows bs).length).map Int.ofNat) ∧
    (write_hdf5 g rows bs false).1.scale.length =
      g.scale.length + (selectRows rows bs).length ∧
    (write_hdf5 g rows bs false).1.atomsLen =
      g.scale.length + (selectRows rows bs).length := by
  refine ⟨?_, ?_, ?_⟩
  · rw [hlen]
    exact assignPositions_select rows bs g.atomsLen
  · show (g.scale ++ (selectRows rows bs).map (fun r => r.key)).length = _
    simp [List.length_append]
  · show max g.atomsLen (g.atomsLen + (selectRows rows bs).length) = _
    rw [Nat.max_eq_right (Nat.le_add_right _ _), hlen]

/-- Witness for C1: a group with index scale `[5]` and one structural row
receives one new row at position 1; scale and structural length grow to
2. -/
theorem write_hdf5_contiguous_allocation_witness :
    ((Group.mk [5] 1 (fun _ => none) []).scale.length =
      (Group.mk [5] 1 (fun _ => none) []).atomsLen) ∧
    ((selectRows (write_hdf5 (Group.mk [5] 1 (fun _ => none) [])
        [⟨9, -1, false, true, false, fun _ => 0, fun _ => true⟩] [true]
        false).2 [true]).map (fun r => r.hdf5Index) =
      (List.range' 1 1).map Int.ofNat) ∧
    (write_hdf5 (Group.mk [5] 1 (fun _ => none) [])
      [⟨9, -1, false, true, false, fun _ => 0, fun _ => true⟩] [true]
      false).1.scale.length = 2 ∧
    (write_hdf5 (Group.mk [5] 1 (fun _ => none) [])
      [⟨9, -1, false, true, false, fun _ => 0, fun _ => true⟩] [true]
      false).1.atomsLen = 2 := by
  have h := write_hdf5_contiguous_allocation (Group.mk [5] 1 (fun _ => none) [])
    [⟨9, -1, false, true, false, fun _ => 0, fun _ => true⟩] [true] rfl
  exact ⟨rfl, h.1, h.2.1, h.2.2⟩

/-- Counterexample to C1 as stated: an update call with
`status = 'optimized'` (reachable through `update_hdf5`) introduces one
new row — the structural datasets grow from 0 to 1 and position 0 is
allocated and recorded — yet the index scale's length stays 0 instead of
growing by 1, because `_write_hdf5` passes `update_scale = not opt`. -/
theorem update_hdf5_optimized_scale_unchanged :
    (update_hdf5 (Group.mk [] 0 (fun _ => none) [])
      [⟨0, -1, false, false, true, fun _ => 0, fun _ => true⟩] false
      (some ("optimized"))).1.atomsLen = 1 ∧
    ((update_hdf5 (Group.mk [] 0 (fun _ => none) [])
      [⟨0, -1, false, false, true, fun _ => 0, fun _ => true⟩] false
      (some ("optimized"))).2.map (fun r => r.hdf5Index) = [0]) ∧
    (update_hdf5 (Group.mk [] 0 (fun _ => none) [])
      [⟨0, -1, false, false, true, fun _ => 0, fun _ => true⟩] false
      (some ("optimized"))).1.scale.length = 0 ∧
    (update_hdf5 (Group.mk [] 0 (fun _ => none) [])
      [⟨0, -1, false, false, true, fun _ => 0, fun _ => true⟩] false
      (some ("optimized"))).1.scale.length ≠ 0 + 1 := by
  refine ⟨?_, ?_, ?_, ?_⟩ <;> decide

/-! ## Claim C6 -/

/-- The C6 scenario group: an empty group (empty index scale, empty
structural datasets, no property datasets, empty change log). -/
def logDemoGroup : Group := ⟨[], 0, fun _ => none, []⟩

/-- The C6 scenario batch: 3 new structural records (classified new via
the `opt` mask column, stored index still the `-1` sentinel) with one
property column of values 11, 22, 33, of which the first two cells are
authoritative (mask true) and the third is not. -/
def logDemoRows : List DFRow :=
  [⟨0, -1, false, true, false, fun _ => 11, fun _ => true⟩,
   ⟨1, -1, false, true, false, fun _ => 22, fun _ => true⟩,
   ⟨2, -1, false, true, false, fun _ => 33, fun _ => false⟩]

/-- The C6 scenario result: one full `from_df` update of the empty group
with the 3-row batch, one property column, `overwrite = False`. -/
def logDemoResult : Group :=
  (from_df logDemoGroup logDemoRows ["formula"] 2 false none).2

/-- Counterexample to C6 as stated: in the spec's scenario (empty group,
3 new structural records, one property column) the update appends two
change-log entries — one from `_write_hdf5` for the structural datasets
and one from `_update_properties` for the property column — not exactly
one. -/
theorem from_df_log_two_entries :
    logDemoResult.log.length = 2 ∧ logDemoResult.log.length ≠ 1 := by
  constructor <;> decide

/-- C6 (amended): in the scenario, exactly two Change Log entries are
appended — one per structural write listing the structural dataset names
with indices `[0, 1, 2]`, and one per property column listing the
property dataset with the indices of the mask-selected rows `[0, 1]` —
and exactly one entry lists `[0, 1, 2]`; the index scale reaches length
3, the property dataset reaches length 3, the two authoritative cells
hold the input values and the non-authoritative cell holds the `-1`
sentinel, not the input value 33. -/
theorem from_df_log_characterization :
    logDemoResult.log.map (fun e => e.indices) = [[0, 1, 2], [0, 1]] ∧
    logDemoResult.log.map (fun e => e.dsets) = [DSET_NAMES, ["formula"]] ∧
    (logDemoResult.log.filter (fun e => e.indices == [0, 1, 2])).length = 1 ∧
    logDemoResult.scale.length = 3 ∧
    ∃ d, logDemoResult.props ("formula") = some d ∧ d.len = 3 ∧
      d.data 0 = 11 ∧ d.data 1 = 22 ∧ d.data 2 = -1 := by
  refine ⟨by decide, by decide, by decide, by decide, ?_⟩
  refine ⟨_, rfl, by decide, by decide, by decide, by decide⟩

/-! ## Claim C8 -/

/-- C8 evaluated at the failing input (a `code_bug`): the collection
already holds key "a"; the batch generator yields documents "a" (a
duplicate) and "b" (new); `overwrite = True`.  `insert_many` consumes the
generator and raises `DuplicateKeyError`, after which the per-row
fallback iterates the now-exhausted generator — so nothing is inserted
or replaced: "b" is lost and "a" keeps its old value, contradicting the
claim that with overwrite every non-duplicate row still ends up inserted
and duplicates are replaced. -/
theorem update_mongodb_exhausted_generator :
    update_mongodb [("a", 0)] ⟨[("a", 1), ("b", 2)], 0⟩ true = [("a", 0)] ∧
    hasKey (update_mongodb [("a", 0)] ⟨[("a", 1), ("b", 2)], 0⟩ true) "b"
      = false := by
  constructor <;> decide

/-! ## Claim C9 -/

/-- C9: for every `from_df` call whose effective column labels are not a
2-level MultiIndex, the `ValueError` "Expected a 2-level MultiIndex" is
raised before the backing store is opened, so the group's index scale,
structural datasets, property datasets and change log are all returned
unmodified. -/
theorem from_df_multiindex_guard (g : Group) (rows : List DFRow)
    (columns : List String) (columnsLevels : Nat) (overwrite : Bool)
    (status : Option String) (h : columnsLevels ≠ 2) :
    from_df g rows columns columnsLevels overwrite status =
      (some ("Expected a 2-level MultiIndex"), g) := by
  unfold from_df
  rw [if_pos h]

/-- Witness for C9: a 1-level column index is rejected and the group is
returned untouched. -/
theorem from_df_multiindex_guard_witness :
    ((1 : Nat) ≠ 2) ∧
    from_df (Group.mk [3] 1 (fun _ => none) []) [] ["formula"] 1 false none =
      (some ("Expected a 2-level MultiIndex"), Group.mk [3] 1 (fun _ => none) []) :=
  ⟨by decide,
   from_df_multiindex_guard (Group.mk [3] 1 (fun _ => none) []) [] ["formula"] 1
     false none (by decide)⟩

end DataCAT
